import Mathlib

/-!
# Verification of the SolanaGrandPrix arcade simulation core

Shallow embedding of the arcade minigame's simulation code
(`src/public/arcade/js` and the engine/storage/game-loop modules) and
proofs about the specified properties.

Numbers: the JavaScript source computes on IEEE doubles.  We embed the
arithmetic over exact fields: `ℚ` for the code paths that use only
field operations and comparisons (checkpoint progression, leaderboard,
ghost playback, the fixed-timestep accumulator), and `ℝ` for the code
paths that use `Math.sqrt` / trigonometry (vector lengths, boundary
collision, car physics).  Integer millisecond clocks (`Date.now()`)
are modelled as `ℤ` parameters passed explicitly.
-/

namespace SGP

/-! ## Rational 2D helpers (from `engine/math.js`)

The progression / storage / ghost claims only use the square-root-free
subset of `math.js`; those functions are embedded over `ℚ`. -/

/-- A 2D point with rational coordinates (`Vec2` from `engine/math.js`,
for the sqrt-free code paths). -/
structure QVec where
  x : ℚ
  y : ℚ
  deriving DecidableEq, Repr

/-- An axis-aligned rectangle `{x, y, width, height}`. -/
structure QRect where
  x : ℚ
  y : ℚ
  width : ℚ
  height : ℚ
  deriving DecidableEq, Repr

/-- `clamp(value, min, max)` from `engine/math.js`:
`Math.min(Math.max(value, min), max)`. -/
def qclamp (value lo hi : ℚ) : ℚ := min (max value lo) hi

/-- `circleRectIntersect(center, radius, rect)` from `engine/math.js`:
clamp the center into the rectangle and compare squared distances. -/
def circleRectIntersect (center : QVec) (radius : ℚ) (rect : QRect) : Bool :=
  let closestX := qclamp center.x rect.x (rect.x + rect.width)
  let closestY := qclamp center.y rect.y (rect.y + rect.height)
  let dx := center.x - closestX
  let dy := center.y - closestY
  decide (dx * dx + dy * dy < radius * radius)

/-- JavaScript `v || d` on an optional number: `null`/`undefined` and `0`
are falsy and fall back to the default. -/
def jsOrQ (v : Option ℚ) (d : ℚ) : ℚ :=
  match v with
  | none => d
  | some x => if x = 0 then d else x

/-! ## Track data relevant to checkpoint progression (`world/track.js`)

Only the fields the `CheckpointManager` consults are embedded here:
`startLine`, `finishLine` and the checkpoint rectangles.  The boundary
polygons and surfaces (used by the car physics) live in the `ℝ`
embedding below. -/

/-- A start/finish line `{x, y, angle, width}`. -/
structure LineQ where
  x : ℚ
  y : ℚ
  angle : ℚ
  width : ℚ
  deriving DecidableEq, Repr

/-- A raw checkpoint record from the track data table; `width`/`height`
may be absent (the constructor then defaults them to 50). -/
structure CheckpointIn where
  x : ℚ
  y : ℚ
  width : Option ℚ
  height : Option ℚ
  deriving DecidableEq, Repr

/-- The progression-relevant part of a constructed `Track`.
In the source, `Track`'s constructor stores `data.startLine || {x:0, y:0,
angle:0, width:100}` (always a truthy object afterwards, so the
`!this.track.startLine` guard in `checkpoints.js` can never fire),
`data.finishLine || null`, and `data.checkpoints || []`. -/
structure TrackQ where
  startLine : LineQ
  finishLine : Option LineQ
  checkpoints : List CheckpointIn
  deriving DecidableEq, Repr

/-- The `Track` constructor's default start line. -/
def defaultStartLine : LineQ := { x := 0, y := 0, angle := 0, width := 100 }

/-- `Track`'s constructor on the progression-relevant fields:
`startLine = data.startLine || {x:0,y:0,angle:0,width:100}`,
`finishLine = data.finishLine || null`, `checkpoints = data.checkpoints || []`. -/
def mkTrackQ (startLine? : Option LineQ) (finishLine? : Option LineQ)
    (checkpoints? : Option (List CheckpointIn)) : TrackQ :=
  { startLine := startLine?.getD defaultStartLine
    finishLine := finishLine?
    checkpoints := checkpoints?.getD [] }

namespace TrackQ

/-- `this.checkpointRects`: each raw checkpoint converted to a rect with
`width: cp.width || 50, height: cp.height || 50`. -/
def checkpointRects (t : TrackQ) : List QRect :=
  t.checkpoints.map fun cp =>
    { x := cp.x, y := cp.y, width := jsOrQ cp.width 50, height := jsOrQ cp.height 50 }

/-- `Track.checkCheckpoint(position, radius, checkpointIndex)`:
out-of-range indices return `false`, otherwise intersect the car circle
with the rect at that index. -/
def checkCheckpoint (t : TrackQ) (position : QVec) (radius : ℚ) (checkpointIndex : ℕ) : Bool :=
  match t.checkpointRects.get? checkpointIndex with
  | none => false
  | some cp => circleRectIntersect position radius cp

end TrackQ

/-! ## Checkpoint / stage progression (`world/checkpoints.js`) -/

/-- JavaScript truthiness of the stored `startTime` (`null` or a
millisecond timestamp): `if (this.startTime)` is false for `null` and
for timestamp `0`. -/
def jsTruthyTime (t : Option ℤ) : Bool :=
  match t with
  | none => false
  | some v => decide (v ≠ 0)

/-- Mutable state of a `CheckpointManager` (checkpoint index, timers,
flags) together with the track it watches. -/
structure CheckpointManager where
  track : TrackQ
  currentCheckpoint : ℕ
  startTime : Option ℤ
  stageTime : ℚ
  bestStageTime : Option ℚ
  lastCheckpointTime : Option ℤ
  hasPassedStartLine : Bool
  stageComplete : Bool
  deriving DecidableEq, Repr

namespace CheckpointManager

/-- The `CheckpointManager` constructor. -/
def init (track : TrackQ) : CheckpointManager :=
  { track := track
    currentCheckpoint := 0
    startTime := none
    stageTime := 0
    bestStageTime := none
    lastCheckpointTime := none
    hasPassedStartLine := false
    stageComplete := false }

/-- `reset()`: everything back to the initial attempt state, the best
time (and the track) retained. -/
def reset (m : CheckpointManager) : CheckpointManager :=
  { m with
    currentCheckpoint := 0
    startTime := none
    stageTime := 0
    lastCheckpointTime := none
    hasPassedStartLine := false
    stageComplete := false }

/-- `start()`: records `Date.now()` (passed here as `now`). -/
def start (m : CheckpointManager) (now : ℤ) : CheckpointManager :=
  { m with startTime := some now }

/-- The start-line trigger rectangle: width centered on the line, fixed
depth 40 (`y - 20 … y + 20`). -/
def startLineRect (line : LineQ) : QRect :=
  { x := line.x - line.width / 2, y := line.y - 20, width := line.width, height := 40 }

/-- `checkPassedStartLine(carPosition, carRadius)`.  (The
`!this.track.startLine` guard never fires because the constructor
defaults `startLine` to a truthy object; it is therefore not modelled.) -/
def checkPassedStartLine (m : CheckpointManager) (carPosition : QVec) (carRadius : ℚ) : Bool :=
  circleRectIntersect carPosition carRadius (startLineRect m.track.startLine)

/-- `checkPassedFinishLine(carPosition, carRadius)`:
`if (!this.track.finishLine) return false;` then the same fixed-depth
rectangle test against the finish line. -/
def checkPassedFinishLine (m : CheckpointManager) (carPosition : QVec) (carRadius : ℚ) : Bool :=
  match m.track.finishLine with
  | none => false
  | some line => circleRectIntersect carPosition carRadius (startLineRect line)

/-- `completeStage(finishTime)`: one-shot; `finishTime` is accepted but
unused by the source (the recorded stage time is `this.stageTime`); the
best time updates when `!this.bestStageTime || stageTime <
this.bestStageTime` — note the JavaScript falsiness: a stored best of
`0` counts as "no best". -/
def completeStage (m : CheckpointManager) (_finishTime : ℤ) : CheckpointManager :=
  if m.stageComplete then m
  else
    let stageTime := m.stageTime
    let wasNewBest :=
      match m.bestStageTime with
      | none => true
      | some b => decide (b = 0) || decide (stageTime < b)
    { m with
      stageComplete := true
      bestStageTime := if wasNewBest then some stageTime else m.bestStageTime }

/-- `update`, first statement block: the one-shot start-line latch
(`if (!this.hasPassedStartLine) { if (this.checkPassedStartLine(...)) {
hasPassedStartLine = true; startTime = now; } }`). -/
def startLatch (m : CheckpointManager) (carPosition : QVec) (carRadius : ℚ) (now : ℤ) :
    CheckpointManager :=
  if ¬m.hasPassedStartLine ∧ checkPassedStartLine m carPosition carRadius = true then
    { m with hasPassedStartLine := true, startTime := some now }
  else m

/-- `update`, stage-time refresh:
`if (this.startTime) { this.stageTime = (now - this.startTime) / 1000; }`. -/
def refreshStageTime (m : CheckpointManager) (now : ℤ) : CheckpointManager :=
  if jsTruthyTime m.startTime then
    { m with stageTime := ((now - m.startTime.getD 0 : ℤ) : ℚ) / 1000 }
  else m

/-- `update`, checkpoint advance: when not all checkpoints are passed
and the car intersects the rect at `currentCheckpoint`, advance by one. -/
def checkpointAdvance (m : CheckpointManager) (carPosition : QVec) (carRadius : ℚ)
    (now : ℤ) : CheckpointManager :=
  if m.currentCheckpoint < m.track.checkpoints.length ∧
      m.track.checkCheckpoint carPosition carRadius m.currentCheckpoint = true then
    { m with
      currentCheckpoint := m.currentCheckpoint + 1
      lastCheckpointTime := some now }
  else m

/-- `update`, finish check: once `currentCheckpoint >= checkpoints.length`,
crossing the finish line completes the stage. -/
def finishCheck (m : CheckpointManager) (carPosition : QVec) (carRadius : ℚ) (now : ℤ) :
    CheckpointManager :=
  if m.track.checkpoints.length ≤ m.currentCheckpoint ∧
      checkPassedFinishLine m carPosition carRadius = true then
    completeStage m now
  else m

/-- `update(carPosition, carRadius)`, with `Date.now()` passed as `now`.
Mirrors the source's sequential mutations: the early return when the
stage is complete, the one-shot start-line latch, then — only once the
start line has been passed — the stage-time refresh, the
single-checkpoint advance, and the finish-line check. -/
def update (m : CheckpointManager) (carPosition : QVec) (carRadius : ℚ) (now : ℤ) :
    CheckpointManager :=
  if m.stageComplete then m
  else
    let m₁ := startLatch m carPosition carRadius now
    if m₁.hasPassedStartLine ∧ ¬m₁.stageComplete then
      finishCheck (checkpointAdvance (refreshStageTime m₁ now) carPosition carRadius now)
        carPosition carRadius now
    else m₁

/-- One host-side update call: the car position/radius sampled that
physics step together with the wall clock. -/
structure UpdateIn where
  pos : QVec
  radius : ℚ
  now : ℤ
  deriving DecidableEq, Repr

/-- A sequence of `update` calls, as driven by the game loop. -/
def runUpdates (m : CheckpointManager) (inputs : List UpdateIn) : CheckpointManager :=
  inputs.foldl (fun s i => s.update i.pos i.radius i.now) m

end CheckpointManager

/-! ## Leaderboard storage (`engine/storage.js`)

The `localStorage` medium is abstracted away: the functions are embedded
as pure list transformers on the stored leaderboard (exactly what
`addLeaderboardEntry` / `qualifiesForLeaderboard` compute between the
`getLeaderboard` read and the `setItem` write). -/

/-- A leaderboard entry `{name, time, date}`. -/
structure Entry where
  name : String
  time : ℚ
  date : ℤ
  deriving DecidableEq, Repr

/-- Insert one element into a list sorted ascending by `time`, placed
before the first strictly greater element — so an element inserted from
the left of the original list lands before every tied element inserted
earlier.  Together with `sortByTime` this realizes
`Array.prototype.sort((a, b) => a.time - b.time)`, which ECMAScript
requires to be a stable ascending sort for this comparator. -/
def insertByTime (e : Entry) : List Entry → List Entry
  | [] => [e]
  | y :: ys => if y.time < e.time then y :: insertByTime e ys else e :: y :: ys

/-- Stable ascending sort by `time` (see `insertByTime`). -/
def sortByTime : List Entry → List Entry
  | [] => []
  | x :: xs => insertByTime x (sortByTime xs)

namespace StorageManager

/-- `addLeaderboardEntry(trackName, name, time)` as a function of the
stored list: push `{name, time, date: Date.now()}` (the clock passed as
`now`), sort ascending by time, keep the first 10 (`slice(0, 10)`). -/
def addLeaderboardEntry (stored : List Entry) (name : String) (time : ℚ) (now : ℤ) :
    List Entry :=
  let leaderboard := stored ++ [{ name := name, time := time, date := now }]
  let leaderboard := sortByTime leaderboard
  leaderboard.take 10

/-- `qualifiesForLeaderboard(trackName, time)` as a function of the
stored list: fewer than 10 entries always qualify, otherwise the time
must be strictly below the last stored entry's time. -/
def qualifiesForLeaderboard (stored : List Entry) (time : ℚ) : Bool :=
  if stored.length < 10 then true
  else
    match stored.getLast? with
    | none => false  -- unreachable: length ≥ 10 means the list is nonempty
    | some worst => decide (time < worst.time)

end StorageManager

/-! ## Ghost playback (`entities/aiCar.js`)

`AICar extends Car` but overrides `update` entirely; the override reads
and writes only the fields below, so they are the whole replay state.
(The inherited physics fields and `opacity` are never consulted by the
override.) -/

/-- One recorded ghost frame `{x, y, angle, speed, slipAngle, timestamp}`
(pushed by `Game.update` during a recording attempt). -/
structure GhostFrame where
  x : ℚ
  y : ℚ
  angle : ℚ
  speed : ℚ
  slipAngle : ℚ
  timestamp : ℤ
  deriving DecidableEq, Repr

/-- The replay-relevant state of an `AICar`. -/
structure AICar where
  position : QVec
  angle : ℚ
  speed : ℚ
  slipAngle : ℚ
  ghostData : List GhostFrame
  currentFrame : ℚ
  isActive : Bool
  deriving DecidableEq, Repr

namespace AICar

/-- `this.ghostData[this.currentFrame]`: a JavaScript array indexed with
a fractional number yields `undefined` unless the index is an integer
within range. -/
def frameAt (data : List GhostFrame) (idx : ℚ) : Option GhostFrame :=
  if idx.den = 1 ∧ 0 ≤ idx.num ∧ idx.num < data.length then data.get? idx.num.toNat
  else none

/-- `loadGhostData(ghostData)`. -/
def loadGhostData (c : AICar) (data : List GhostFrame) : AICar :=
  { c with ghostData := data, currentFrame := 0, isActive := data.length > 0 }

/-- `AICar.update(deltaTime)`: deactivate past the end of the trace,
otherwise copy the sample at the (integer) frame cursor into the pose
fields and advance the cursor by `60 * deltaTime`. -/
def update (c : AICar) (deltaTime : ℚ) : AICar :=
  -- source guard: `!this.isActive || !this.ghostData || currentFrame >= length`;
  -- `ghostData` here is a (never-null) list, so the JavaScript null check
  -- `!this.ghostData` has no analogue (an empty array is truthy in JS and
  -- is caught by the length comparison through `frameAt` anyway)
  if ¬c.isActive ∨ (c.ghostData.length : ℚ) ≤ c.currentFrame then
    { c with isActive := false }
  else
    let c₁ :=
      match frameAt c.ghostData c.currentFrame with
      | some frame =>
        { c with
          position := ⟨frame.x, frame.y⟩
          angle := frame.angle
          speed := frame.speed
          slipAngle := frame.slipAngle }
      | none => c
    let frameRate : ℚ := 60
    let c₂ := { c₁ with currentFrame := c₁.currentFrame + frameRate * deltaTime }
    if (c₂.ghostData.length : ℚ) ≤ c₂.currentFrame then { c₂ with isActive := false }
    else c₂

/-- Replay over a sequence of per-frame deltas, exposing every
intermediate state (most recent last). -/
def run (c : AICar) (deltas : List ℚ) : List AICar :=
  match deltas with
  | [] => []
  | d :: ds => let c' := c.update d; c' :: run c' ds

end AICar

/-! ## Fixed-timestep game loop (`engine/game.js`)

`gameLoop` per render tick: clamp the real delta to `MAX_FRAME_TIME`,
add it to the accumulator, then run one physics `update(FIXED_TIMESTEP)`
per `FIXED_TIMESTEP` held by the accumulator.  We embed the accumulator
arithmetic and count the `update` invocations. -/

/-- `FIXED_TIMESTEP = 1 / 60` (60 Hz physics). -/
def FIXED_TIMESTEP : ℚ := 1 / 60

/-- `MAX_FRAME_TIME = 0.25` (spiral-of-death clamp). -/
def MAX_FRAME_TIME : ℚ := 1 / 4

/-- The `while (this.accumulator >= FIXED_TIMESTEP)` loop: returns the
remaining accumulator and the number of physics steps run. -/
def drain (acc : ℚ) : ℚ × ℕ :=
  if FIXED_TIMESTEP ≤ acc then
    let p := drain (acc - FIXED_TIMESTEP)
    (p.1, p.2 + 1)
  else (acc, 0)
  termination_by (⌈acc / FIXED_TIMESTEP⌉).toNat
  decreasing_by
    have h15 : (0 : ℚ) < FIXED_TIMESTEP := by norm_num [FIXED_TIMESTEP]
    have h1 : (1 : ℚ) ≤ acc / FIXED_TIMESTEP := (one_le_div h15).mpr (by assumption)
    have hdiv : (acc - FIXED_TIMESTEP) / FIXED_TIMESTEP = acc / FIXED_TIMESTEP - 1 := by
      field_simp
    have h2 : (1 : ℤ) ≤ ⌈acc / FIXED_TIMESTEP⌉ := by
      have hc := Int.le_ceil (acc / FIXED_TIMESTEP)
      exact_mod_cast le_trans h1 hc
    rw [hdiv, Int.ceil_sub_one]
    omega

/-- One render tick of `gameLoop` in the unpaused state: clamp the
frame delta, accumulate, drain.  Returns the new accumulator and the
number of `update(FIXED_TIMESTEP)` calls made this tick. -/
def gameTick (acc : ℚ) (deltaTime : ℚ) : ℚ × ℕ :=
  drain (acc + min deltaTime MAX_FRAME_TIME)

/-- Run the loop over a list of per-tick real-time deltas, starting
from accumulator state `acc`, counting total physics steps. -/
def runLoop (acc : ℚ) : List ℚ → ℚ × ℕ
  | [] => (acc, 0)
  | d :: ds =>
    let t := gameTick acc d
    let rest := runLoop t.1 ds
    (rest.1, t.2 + rest.2)

/-! ## Real-valued geometry (`engine/math.js`, sqrt-using subset)

The boundary-collision resolver and the car physics use `Math.sqrt`,
`Math.atan2`, `Math.cos`/`Math.sin`; this part of the embedding lives
over `ℝ`. -/

noncomputable section RealEmbedding

/-- `Vec2` from `engine/math.js`, over `ℝ`. -/
structure Vec2 where
  x : ℝ
  y : ℝ

namespace Vec2

def add (v w : Vec2) : Vec2 := ⟨v.x + w.x, v.y + w.y⟩

def sub (v w : Vec2) : Vec2 := ⟨v.x - w.x, v.y - w.y⟩

def mul (v : Vec2) (s : ℝ) : Vec2 := ⟨v.x * s, v.y * s⟩

def dot (v w : Vec2) : ℝ := v.x * w.x + v.y * w.y

def length (v : Vec2) : ℝ := Real.sqrt (v.x * v.x + v.y * v.y)

def lengthSq (v : Vec2) : ℝ := v.x * v.x + v.y * v.y

/-- `normalize()`: zero vector maps to zero. -/
def normalize (v : Vec2) : Vec2 :=
  if 0 < v.length then ⟨v.x / v.length, v.y / v.length⟩ else ⟨0, 0⟩

/-- `copy()` returns an equal (fresh) vector. -/
def copy (v : Vec2) : Vec2 := ⟨v.x, v.y⟩

end Vec2

/-- `clamp(value, min, max)` over `ℝ`. -/
def rclamp (value lo hi : ℝ) : ℝ := min (max value lo) hi

/-- `distance(a, b)` from `engine/math.js`. -/
def dist2 (a b : Vec2) : ℝ :=
  Real.sqrt ((a.x - b.x) * (a.x - b.x) + (a.y - b.y) * (a.y - b.y))

/-- `pointToSegmentDistance(p, a, b)`: point-to-point distance for
near-degenerate segments, else distance to the clamped projection. -/
def pointToSegmentDistance (p a b : Vec2) : ℝ :=
  let ab := b.sub a
  let ap := p.sub a
  let abLenSq := ab.lengthSq
  if abLenSq < 0.0001 then dist2 p a
  else
    let t := rclamp (ap.dot ab / abLenSq) 0 1
    let closest := a.add (ab.mul t)
    dist2 p closest

/-! ## Track boundaries and surfaces (`world/track.js`, `ℝ` part) -/

/-- Surface kinds; the source keys surfaces by the strings
`'asphalt' | 'dirt' | 'grass'` (`CAR_CONFIG.SURFACE_GRIP[...]` falls
back to asphalt for anything else, so the three-valued enum is exact). -/
inductive SurfaceKind where
  | asphalt
  | dirt
  | grass
  deriving DecidableEq, Repr

/-- A surface region `{type, poly}`. -/
structure Surface where
  type : SurfaceKind
  poly : List Vec2

/-- The physics-relevant part of a constructed `Track`: boundary
polygons and surface regions. -/
structure TrackR where
  outerBoundary : List Vec2
  innerBoundary : List Vec2
  surfaces : List Surface

/-- The closed-polygon edge list walked by the `for` loops in
`checkCollision`: `(poly[i], poly[(i+1) % n])` for `i = 0 … n-1`. -/
def polyEdges (poly : List Vec2) : List (Vec2 × Vec2) :=
  poly.zip (poly.rotate 1)

/-- Result record of `Track.checkCollision` (`{hit, newPosition}`; the
`distance` field is only read by debug overlays and is omitted). -/
structure CollisionResult where
  hit : Bool
  newPosition : Vec2

/-- Body of the outer-boundary `for` loop in `Track.checkCollision`:
scan the edges in order, skip near-zero-length segments, and on the
first edge closer than `radius` compute the corrected position
`closestOnSegment + pushNormal * (radius - distToCar + 15)` and `break`. -/
def resolveOuter (position : Vec2) (radius : ℝ) : List (Vec2 × Vec2) → Option Vec2
  | [] => none
  | (a, b) :: rest =>
    let dist := pointToSegmentDistance position a b
    if dist < radius then
      let segment := b.sub a
      let segmentLenSq := segment.lengthSq
      if segmentLenSq < 0.0001 then resolveOuter position radius rest  -- continue
      else
        let toPoint := position.sub a
        let t := rclamp (toPoint.dot segment / segmentLenSq) 0 1
        let closestOnSegment := a.add (segment.mul t)
        let toCar := position.sub closestOnSegment
        let distToCar := toCar.length
        let pushNormal :=
          if distToCar < 0.0001 then
            let perp : Vec2 := ⟨-segment.y, segment.x⟩
            if 0.0001 < perp.length then perp.normalize else ⟨1, 0⟩
          else toCar.normalize
        let pushDistance := radius - distToCar + 15
        some (closestOnSegment.add (pushNormal.mul pushDistance))
    else resolveOuter position radius rest

/-- Body of the inner-boundary `for` loop: identical scan except the
push normal is reversed (outward from the inner boundary) and the
degenerate perpendicular has the opposite sign. -/
def resolveInner (position : Vec2) (radius : ℝ) : List (Vec2 × Vec2) → Option Vec2
  | [] => none
  | (a, b) :: rest =>
    let dist := pointToSegmentDistance position a b
    if dist < radius then
      let segment := b.sub a
      let segmentLenSq := segment.lengthSq
      if segmentLenSq < 0.0001 then resolveInner position radius rest  -- continue
      else
        let toPoint := position.sub a
        let t := rclamp (toPoint.dot segment / segmentLenSq) 0 1
        let closestOnSegment := a.add (segment.mul t)
        let toCar := position.sub closestOnSegment
        let distToCar := toCar.length
        let pushNormal :=
          if distToCar < 0.0001 then
            let perp : Vec2 := ⟨segment.y, -segment.x⟩
            if 0.0001 < perp.length then perp.normalize else ⟨1, 0⟩
          else (toCar.normalize).mul (-1)
        let pushDistance := radius - distToCar + 15
        some (closestOnSegment.add (pushNormal.mul pushDistance))
    else resolveInner position radius rest

namespace TrackR

/-- `Track.checkCollision(position, radius)`: the outer boundary is
scanned first; the inner boundary only if no outer edge hit. -/
def checkCollision (t : TrackR) (position : Vec2) (radius : ℝ) : CollisionResult :=
  match resolveOuter position radius (polyEdges t.outerBoundary) with
  | some p => { hit := true, newPosition := p }
  | none =>
    match resolveInner position radius (polyEdges t.innerBoundary) with
    | some p => { hit := true, newPosition := p }
    | none => { hit := false, newPosition := position.copy }

/-- `Track.isPointInPolygon(point, polygon)`: even-odd crossing test,
`false` for polygons with fewer than 3 vertices.  The edge pairs are
`(polygon[i], polygon[j])` with `j` the predecessor index.  When
`yi = yj` the JavaScript division yields `±Infinity` but the crossing
conjunct is already false, so the (total) Lean division is never
relevant in that case. -/
def isPointInPolygon (point : Vec2) (polygon : List Vec2) : Bool :=
  if polygon.length < 3 then false
  else
    (polygon.zip (polygon.rotate (polygon.length - 1))).foldl
      (fun inside pq =>
        let xi := pq.1.x; let yi := pq.1.y
        let xj := pq.2.x; let yj := pq.2.y
        let intersect :=
          ((decide (point.y < yi)) != (decide (point.y < yj))) &&
            decide (point.x < (xj - xi) * (point.y - yi) / (yj - yi) + xi)
        if intersect then !inside else inside)
      false

/-- `Track.getSurfaceType(position)`: first matching surface polygon,
default asphalt. -/
def getSurfaceType (t : TrackR) (position : Vec2) : SurfaceKind :=
  match t.surfaces.find? (fun s => isPointInPolygon position s.poly) with
  | some s => s.type
  | none => SurfaceKind.asphalt

end TrackR

/-! ## Car physics (`entities/car.js`) -/

namespace CAR_CONFIG

def MAX_ACCELERATION : ℝ := 1200
def MAX_BRAKE_FORCE : ℝ := 1800
def FRICTION : ℝ := 0.85
def MAX_STEER_ANGLE : ℝ := 0.6
def STEER_SPEED : ℝ := 8.0
def STEER_RESPONSE : ℝ := 0.15
def MAX_TRACTION : ℝ := 250
def LATERAL_FRICTION : ℝ := 0.95
def SLIP_THRESHOLD : ℝ := 0.12
def SLIP_FACTOR : ℝ := 2.5
def DRIFT_FACTOR : ℝ := 0.35
def GRIP_RECOVERY : ℝ := 0.85
def CORNER_STIFFNESS : ℝ := 0.8
def LATERAL_VELOCITY_DAMPING : ℝ := 0.92
def HANDBRAKE_FORCE : ℝ := 0.5
def HANDBRAKE_SLIP : ℝ := 0.9
def HANDBRAKE_LATERAL_REDUCTION : ℝ := 0.4

/-- `SURFACE_GRIP[...]`, with the `|| SURFACE_GRIP.asphalt` fallback
made unnecessary by the exact enum. -/
def SURFACE_GRIP : SurfaceKind → ℝ
  | SurfaceKind.asphalt => 1.0
  | SurfaceKind.dirt => 0.65
  | SurfaceKind.grass => 0.3

/-- `SURFACE_LATERAL[...]`. -/
def SURFACE_LATERAL : SurfaceKind → ℝ
  | SurfaceKind.asphalt => 1.0
  | SurfaceKind.dirt => 0.6
  | SurfaceKind.grass => 0.25

def CAR_WIDTH : ℝ := 20
def CAR_HEIGHT : ℝ := 35
def TIRE_MARK_THRESHOLD : ℝ := 0.15
def TIRE_MARK_INTENSITY_SCALE : ℝ := 1.5

end CAR_CONFIG

/-- `Math.atan2(y, x)` (the value is irrelevant to the claims proved
below; it is only exercised when `speed > 5`). -/
def atan2 (y x : ℝ) : ℝ :=
  if 0 < x then Real.arctan (y / x)
  else if x < 0 then
    if 0 ≤ y then Real.arctan (y / x) + Real.pi else Real.arctan (y / x) - Real.pi
  else
    if 0 < y then Real.pi / 2 else if y < 0 then -(Real.pi / 2) else 0

/-- First loop of `normalizeAngle`: `while (angle > PI) angle -= 2 * PI`. -/
def normDown (angle : ℝ) : ℝ :=
  if Real.pi < angle then normDown (angle - 2 * Real.pi) else angle
  termination_by (⌈(angle - Real.pi) / (2 * Real.pi)⌉).toNat
  decreasing_by
    have hπ : (0 : ℝ) < 2 * Real.pi := by positivity
    have h1 : (0 : ℝ) < (angle - Real.pi) / (2 * Real.pi) :=
      div_pos (by linarith) hπ
    have hdiv : (angle - 2 * Real.pi - Real.pi) / (2 * Real.pi)
        = (angle - Real.pi) / (2 * Real.pi) - 1 := by
      field_simp
      ring
    have h2 : (1 : ℤ) ≤ ⌈(angle - Real.pi) / (2 * Real.pi)⌉ := Int.ceil_pos.mpr h1
    rw [hdiv, Int.ceil_sub_one]
    omega

/-- Second loop of `normalizeAngle`: `while (angle < -PI) angle += 2 * PI`. -/
def normUp (angle : ℝ) : ℝ :=
  if angle < -Real.pi then normUp (angle + 2 * Real.pi) else angle
  termination_by (⌈(-angle - Real.pi) / (2 * Real.pi)⌉).toNat
  decreasing_by
    have hπ : (0 : ℝ) < 2 * Real.pi := by positivity
    have h1 : (0 : ℝ) < (-angle - Real.pi) / (2 * Real.pi) :=
      div_pos (by linarith) hπ
    have hdiv : (-(angle + 2 * Real.pi) - Real.pi) / (2 * Real.pi)
        = (-angle - Real.pi) / (2 * Real.pi) - 1 := by
      field_simp
      ring
    have h2 : (1 : ℤ) ≤ ⌈(-angle - Real.pi) / (2 * Real.pi)⌉ := Int.ceil_pos.mpr h1
    rw [hdiv, Int.ceil_sub_one]
    omega

/-- `Car.normalizeAngle(angle)` (two sequential while loops). -/
def normalizeAngle (angle : ℝ) : ℝ := normUp (normDown angle)

/-- Per-step control input `{steer, throttle, brake, handbrake}`. -/
structure InputState where
  steer : ℝ
  throttle : ℝ
  brake : ℝ
  handbrake : Bool

/-- A tire-mark sample pushed by `Car.update` while drifting. -/
structure TireMark where
  position : Vec2
  angle : ℝ
  slipAngle : ℝ
  intensity : ℝ
  lifetime : ℝ
  timestamp : ℤ
  createdAt : ℤ
  previousPosition : Option Vec2

/-- The mutable state of a `Car`. -/
structure Car where
  position : Vec2
  angle : ℝ
  velocity : Vec2
  angularVelocity : ℝ
  speed : ℝ
  slipAngle : ℝ
  currentGrip : ℝ
  surfaceType : SurfaceKind
  steerInput : ℝ
  throttleInput : ℝ
  brakeInput : ℝ
  handbrakeInput : Bool
  tireMarks : List TireMark
  lastTireMarkTime : ℤ

namespace Car

/-- The `Car` constructor `new Car(x, y, angle)`. -/
def mkCar (x y : ℝ) (angle : ℝ) : Car :=
  { position := ⟨x, y⟩
    angle := angle
    velocity := ⟨0, 0⟩
    angularVelocity := 0
    speed := 0
    slipAngle := 0
    currentGrip := CAR_CONFIG.MAX_TRACTION
    surfaceType := SurfaceKind.asphalt
    steerInput := 0
    throttleInput := 0
    brakeInput := 0
    handbrakeInput := false
    tireMarks := []
    lastTireMarkTime := 0 }

/-- `Math.sign` (returns 0 at 0, matching JavaScript). -/
def jsSign (x : ℝ) : ℝ := if x < 0 then -1 else if 0 < x then 1 else 0

/-- `Car.update(input, deltaTime, track)`, with the two `Date.now()`
reads in the tire-mark block passed in as `now`.  The source's
sequential field mutations are threaded through `let` bindings in the
same order. -/
def update (c : Car) (input : InputState) (deltaTime : ℝ) (track : Option TrackR)
    (now : ℤ) : Car :=
  -- surface lookup (`track ? track.getSurfaceType(this.position) : 'asphalt'`)
  let surfaceType :=
    match track with
    | some t => t.getSurfaceType c.position
    | none => SurfaceKind.asphalt
  -- input clamping
  let steerInput := rclamp input.steer (-1) 1
  let throttleInput := rclamp input.throttle 0 1
  let brakeInput := rclamp input.brake 0 1
  let handbrakeInput := input.handbrake
  let surfaceGrip := CAR_CONFIG.SURFACE_GRIP surfaceType
  -- slip angle (reads the previous step's `speed` field)
  let slipAngle₁ :=
    if 5 < c.speed then
      let velocityAngle := atan2 c.velocity.y c.velocity.x
      let s := normalizeAngle (velocityAngle - c.angle)
      if Real.pi / 2 < |s| then jsSign s * (Real.pi - |s|) else s
    else 0
  -- lateral friction base
  let surfaceLateralGrip := CAR_CONFIG.SURFACE_LATERAL surfaceType
  let baseLateralFriction := CAR_CONFIG.LATERAL_FRICTION * surfaceLateralGrip
  -- lateral grip falloff above the slip threshold
  let absSlip := |slipAngle₁|
  let lateralGripMultiplier₁ :=
    if CAR_CONFIG.SLIP_THRESHOLD < absSlip then
      let slipExcess := absSlip - CAR_CONFIG.SLIP_THRESHOLD
      let slipRatio := min (slipExcess / (Real.pi / 4)) 1.0
      1.0 - slipRatio ^ CAR_CONFIG.SLIP_FACTOR * 0.85
    else 1.0
  -- speed-based grip loss (computed before the handbrake modification)
  let speedFactor := min (c.speed / CAR_CONFIG.MAX_TRACTION) 1
  let speedGripLoss :=
    1.0 - CAR_CONFIG.DRIFT_FACTOR * speedFactor * (1 - lateralGripMultiplier₁)
  -- handbrake: reduce lateral grip, amplify slip
  let lateralGripMultiplier :=
    if handbrakeInput then lateralGripMultiplier₁ * CAR_CONFIG.HANDBRAKE_LATERAL_REDUCTION
    else lateralGripMultiplier₁
  let slipAngle :=
    if handbrakeInput then
      slipAngle₁ * (1 + CAR_CONFIG.HANDBRAKE_SLIP * (1 - lateralGripMultiplier))
    else slipAngle₁
  let effectiveLateralFriction := baseLateralFriction * lateralGripMultiplier * speedGripLoss
  -- grip recovery off throttle, effective grip = hard speed ceiling
  let gripRecovery := if throttleInput < 0.3 then CAR_CONFIG.GRIP_RECOVERY else 1.0
  let currentGrip :=
    CAR_CONFIG.MAX_TRACTION * surfaceGrip * lateralGripMultiplier * speedGripLoss *
      gripRecovery
  let maxSpeed := currentGrip
  -- steering
  let steerReduction := max 0.25 (1 - c.speed / maxSpeed * 0.75)
  let targetSteerAngle :=
    steerInput * CAR_CONFIG.MAX_STEER_ANGLE * steerReduction * CAR_CONFIG.CORNER_STIFFNESS
  let currentSteerAngle := c.angularVelocity / max c.speed 10 * deltaTime
  let steerDelta := normalizeAngle (targetSteerAngle - currentSteerAngle)
  let angularVelocity₁ :=
    c.angularVelocity + steerDelta * CAR_CONFIG.STEER_SPEED * deltaTime *
      CAR_CONFIG.STEER_RESPONSE
  -- longitudinal force
  let acceleration₁ :=
    if 0 < throttleInput then CAR_CONFIG.MAX_ACCELERATION * throttleInput * surfaceGrip
    else 0
  let acceleration₂ :=
    if 0 < brakeInput then
      acceleration₁ - CAR_CONFIG.MAX_BRAKE_FORCE * brakeInput * surfaceGrip * jsSign c.speed
    else acceleration₁
  let acceleration :=
    if handbrakeInput then
      acceleration₂ -
        CAR_CONFIG.MAX_BRAKE_FORCE * CAR_CONFIG.HANDBRAKE_FORCE * surfaceGrip *
          jsSign c.speed
    else acceleration₂
  -- integrate longitudinal force along heading
  let forward : Vec2 := ⟨Real.cos c.angle, Real.sin c.angle⟩
  let velocity₁ := c.velocity.add (forward.mul (acceleration * deltaTime))
  -- longitudinal / lateral split and friction
  let longitudinalFriction := CAR_CONFIG.FRICTION * surfaceGrip
  let forwardVel := velocity₁.dot forward
  let forwardVec := forward.mul forwardVel
  let lateralVel := velocity₁.sub forwardVec
  let velocity₂ := velocity₁.sub (forwardVec.mul (longitudinalFriction * deltaTime))
  let lateralFriction := effectiveLateralFriction * CAR_CONFIG.LATERAL_VELOCITY_DAMPING
  let velocity₃ := velocity₂.sub (lateralVel.mul ((1 - lateralFriction) * deltaTime * 10))
  -- clamp speed to the grip ceiling
  let speed₁ := velocity₃.length
  let velocity := if maxSpeed < speed₁ then (velocity₃.normalize).mul maxSpeed else velocity₃
  let speed := if maxSpeed < speed₁ then maxSpeed else speed₁
  -- integrate position and rotation (slip-scaled)
  let position := c.position.add (velocity.mul deltaTime)
  let slipRotationFactor := 1.0 + |slipAngle| * 0.3
  let angle := normalizeAngle (c.angle + angularVelocity₁ * deltaTime * slipRotationFactor)
  -- angular velocity decay
  let steerDecay := if 0.1 < |steerInput| then 0.98 else 0.94
  let angularVelocity := angularVelocity₁ * steerDecay
  -- tire-mark emission
  let tireMarkState :=
    if CAR_CONFIG.TIRE_MARK_THRESHOLD < |slipAngle| ∧ 30 < speed ∧
        40 < now - c.lastTireMarkTime then
      let slipIntensity := min (|slipAngle| / (Real.pi / 3)) 1.0
      let speedIntensity := min (speed / CAR_CONFIG.MAX_TRACTION) 1.0
      let markIntensity :=
        (slipIntensity * 0.7 + speedIntensity * 0.3) * CAR_CONFIG.TIRE_MARK_INTENSITY_SCALE
      let mark : TireMark :=
        { position := position.copy
          angle := angle
          slipAngle := slipAngle
          intensity := min markIntensity 1.0
          lifetime := 4000
          timestamp := now
          createdAt := now
          previousPosition := (c.tireMarks.getLast?).map TireMark.position }
      (c.tireMarks ++ [mark], now)
    else (c.tireMarks, c.lastTireMarkTime)
  { c with
    surfaceType := surfaceType
    steerInput := steerInput
    throttleInput := throttleInput
    brakeInput := brakeInput
    handbrakeInput := handbrakeInput
    slipAngle := slipAngle
    currentGrip := currentGrip
    angularVelocity := angularVelocity
    velocity := velocity
    speed := speed
    position := position
    angle := angle
    tireMarks := tireMarkState.1
    lastTireMarkTime := tireMarkState.2 }

/-- `Car.resetToCheckpoint(checkpointPosition, checkpointAngle)`. -/
def resetToCheckpoint (c : Car) (checkpointPosition : Vec2) (checkpointAngle : ℝ) : Car :=
  { c with
    position := checkpointPosition.copy
    angle := checkpointAngle
    velocity := ⟨0, 0⟩
    angularVelocity := 0
    speed := 0
    slipAngle := 0 }

end Car

end RealEmbedding

/-! ## Concrete fixtures used by witnesses and counterexamples -/

/-- A minimal track: default start line, no finish line, no checkpoints. -/
def trivialTrackQ : TrackQ :=
  { startLine := defaultStartLine, finishLine := none, checkpoints := [] }

/-- A track with one 50×50 checkpoint at the origin and a finish line. -/
def oneCheckpointTrack : TrackQ :=
  { startLine := defaultStartLine
    finishLine := some { x := 500, y := 0, angle := 0, width := 100 }
    checkpoints := [{ x := 0, y := 0, width := some 50, height := some 50 }] }

/-- A manager mid-attempt whose stored best time is `0` (reachable by
completing an attempt in under a millisecond): exposes the JavaScript
falsiness of `!this.bestStageTime`. -/
def zeroBestManager : CheckpointManager :=
  { track := trivialTrackQ
    currentCheckpoint := 0
    startTime := some 1000
    stageTime := 1
    bestStageTime := some 0
    lastCheckpointTime := none
    hasPassedStartLine := true
    stageComplete := false }

/-- A manager mid-attempt with stored best `2` and current stage time `1`. -/
def pendingManager : CheckpointManager :=
  { track := trivialTrackQ
    currentCheckpoint := 0
    startTime := some 1000
    stageTime := 1
    bestStageTime := some 2
    lastCheckpointTime := none
    hasPassedStartLine := true
    stageComplete := false }

/-- A two-frame recorded ghost trace. -/
def ghostTraceEx : List GhostFrame :=
  [{ x := 1, y := 2, angle := 3, speed := 4, slipAngle := 5, timestamp := 6 },
   { x := 7, y := 8, angle := 9, speed := 10, slipAngle := 11, timestamp := 12 }]

/-- A freshly loaded ghost player over `ghostTraceEx`. -/
def ghostPlayerA : AICar :=
  { position := ⟨0, 0⟩, angle := 0, speed := 0, slipAngle := 0
    ghostData := ghostTraceEx, currentFrame := 0, isActive := true }

/-- The same replay state with different (physics-irrelevant) speed and
slip fields. -/
def ghostPlayerB : AICar :=
  { position := ⟨0, 0⟩, angle := 0, speed := 99, slipAngle := -7
    ghostData := ghostTraceEx, currentFrame := 0, isActive := true }

noncomputable section RealFixtures

/-- A track whose outer boundary is the single segment `(0,0)–(100,0)`
(the 2-vertex polygon walks it twice); no inner boundary, no surfaces. -/
def straightWallTrack : TrackR :=
  { outerBoundary := [⟨0, 0⟩, ⟨100, 0⟩], innerBoundary := [], surfaces := [] }

/-- An empty physics track (no boundaries, default-asphalt everywhere). -/
def emptyTrackR : TrackR := { outerBoundary := [], innerBoundary := [], surfaces := [] }

/-- The zero control vector. -/
def zeroInput : InputState := { steer := 0, throttle := 0, brake := 0, handbrake := false }

end RealFixtures

/-! # Theorems -/

/-! ## C7: reset zeroes the motion state and adopts the pose -/

/-- `copy()` returns a vector equal to the original. -/
theorem Vec2.copy_eq (v : Vec2) : v.copy = v := rfl

/-- C7: for every vehicle state and every target pose,
`resetToCheckpoint(pose)` leaves the vehicle at the pose position with
the pose heading and with velocity, angular velocity, speed and slip
angle all zero. -/
theorem c7_reset_to_pose (c : Car) (p : Vec2) (a : ℝ) :
    (c.resetToCheckpoint p a).position = p ∧
    (c.resetToCheckpoint p a).angle = a ∧
    (c.resetToCheckpoint p a).velocity = ⟨0, 0⟩ ∧
    (c.resetToCheckpoint p a).angularVelocity = 0 ∧
    (c.resetToCheckpoint p a).speed = 0 ∧
    (c.resetToCheckpoint p a).slipAngle = 0 := by
  refine ⟨?_, rfl, rfl, rfl, rfl, rfl⟩
  show p.copy = p
  exact Vec2.copy_eq p

/-! ## C10: leaderboard qualification -/

/-- C10: `qualifiesForLeaderboard` returns `true` iff the stored
leaderboard has fewer than 10 entries or the time is strictly below the
last stored entry's time; with a full board, a time equal to the worst
does not qualify. -/
theorem c10_qualifies_iff (stored : List Entry) (time : ℚ) :
    StorageManager.qualifiesForLeaderboard stored time = true ↔
      (stored.length < 10 ∨ ∃ worst, stored.getLast? = some worst ∧ time < worst.time) := by
  unfold StorageManager.qualifiesForLeaderboard
  by_cases hlen : stored.length < 10
  · simp [hlen]
  · have hne : stored ≠ [] := by
      intro h
      exact hlen (by simp [h])
    obtain ⟨worst, hworst⟩ :=
      Option.ne_none_iff_exists'.mp (fun h => hne (List.getLast?_eq_none_iff.mp h))
    rw [hworst]
    simp [hworst, hlen]

/-! ## C2: best-time update on stage completion -/

/-- Counterexample to C2 as stated: with a stored best time of `0` (a
stored best time all the same), completing with stage time `1 ≥ 0`
does not leave the best unchanged — JavaScript's `!this.bestStageTime`
treats the stored `0` as absent and overwrites it with `1`. -/
theorem c2_counterexample :
    zeroBestManager.stageComplete = false ∧
    zeroBestManager.bestStageTime = some 0 ∧
    zeroBestManager.stageTime = 1 ∧
    (0 : ℚ) ≤ 1 ∧
    (zeroBestManager.completeStage 2000).bestStageTime = some 1 := by
  norm_num [zeroBestManager, CheckpointManager.completeStage]

/-- C2 (amended): on a not-yet-complete manager, `completeStage` makes
the current stage time the best when no best exists or the stage time
is strictly lower; a stored *nonzero* best survives a completion with a
greater-or-equal stage time (a stored best of exactly `0` is treated as
absent by the `!this.bestStageTime` falsiness and is overwritten). -/
theorem c2_best_time_update (m : CheckpointManager) (ft : ℤ)
    (hnc : m.stageComplete = false) :
    (m.bestStageTime = none → (m.completeStage ft).bestStageTime = some m.stageTime) ∧
    (∀ b : ℚ, m.bestStageTime = some b → m.stageTime < b →
      (m.completeStage ft).bestStageTime = some m.stageTime) ∧
    (∀ b : ℚ, m.bestStageTime = some b → b ≠ 0 → b ≤ m.stageTime →
      (m.completeStage ft).bestStageTime = some b) := by
  unfold CheckpointManager.completeStage
  rw [hnc]
  refine ⟨fun h => by simp [h], fun b hb hlt => by simp [hb, hlt], fun b hb hb0 hle => ?_⟩
  have hnlt : ¬m.stageTime < b := not_lt.mpr hle
  simp [hb, hb0, hnlt]

/-- Witness for C2: completing `pendingManager` (best `2`, stage time
`1 < 2`) makes `1` the new best. -/
theorem c2_witness :
    (pendingManager.completeStage 2000).bestStageTime = some 1 :=
  (c2_best_time_update pendingManager 2000 rfl).2.1 2 rfl (by norm_num [pendingManager])

/-! ## Preservation lemmas for the `update` phases -/

namespace CheckpointManager

theorem completeStage_track (m : CheckpointManager) (ft : ℤ) :
    (m.completeStage ft).track = m.track := by
  unfold completeStage
  split <;> rfl

theorem completeStage_cc (m : CheckpointManager) (ft : ℤ) :
    (m.completeStage ft).currentCheckpoint = m.currentCheckpoint := by
  unfold completeStage
  split <;> rfl

theorem startLatch_track (m : CheckpointManager) (pos : QVec) (r : ℚ) (now : ℤ) :
    (m.startLatch pos r now).track = m.track := by
  unfold startLatch
  split <;> rfl

theorem startLatch_cc (m : CheckpointManager) (pos : QVec) (r : ℚ) (now : ℤ) :
    (m.startLatch pos r now).currentCheckpoint = m.currentCheckpoint := by
  unfold startLatch
  split <;> rfl

theorem startLatch_complete (m : CheckpointManager) (pos : QVec) (r : ℚ) (now : ℤ) :
    (m.startLatch pos r now).stageComplete = m.stageComplete := by
  unfold startLatch
  split <;> rfl

theorem refreshStageTime_track (m : CheckpointManager) (now : ℤ) :
    (m.refreshStageTime now).track = m.track := by
  unfold refreshStageTime
  split <;> rfl

theorem refreshStageTime_cc (m : CheckpointManager) (now : ℤ) :
    (m.refreshStageTime now).currentCheckpoint = m.currentCheckpoint := by
  unfold refreshStageTime
  split <;> rfl

theorem refreshStageTime_complete (m : CheckpointManager) (now : ℤ) :
    (m.refreshStageTime now).stageComplete = m.stageComplete := by
  unfold refreshStageTime
  split <;> rfl

theorem checkpointAdvance_track (m : CheckpointManager) (pos : QVec) (r : ℚ) (now : ℤ) :
    (m.checkpointAdvance pos r now).track = m.track := by
  unfold checkpointAdvance
  split <;> rfl

theorem checkpointAdvance_complete (m : CheckpointManager) (pos : QVec) (r : ℚ)
    (now : ℤ) :
    (m.checkpointAdvance pos r now).stageComplete = m.stageComplete := by
  unfold checkpointAdvance
  split <;> rfl

/-- The checkpoint advance either leaves the index unchanged, or — only
when the car's circle intersects the rect at exactly that index, and the
index is still below the checkpoint count — increments it by one. -/
theorem checkpointAdvance_cases (m : CheckpointManager) (pos : QVec) (r : ℚ) (now : ℤ) :
    (m.checkpointAdvance pos r now).currentCheckpoint = m.currentCheckpoint ∨
      ((m.checkpointAdvance pos r now).currentCheckpoint = m.currentCheckpoint + 1 ∧
        m.currentCheckpoint < m.track.checkpoints.length ∧
        m.track.checkCheckpoint pos r m.currentCheckpoint = true) := by
  unfold checkpointAdvance
  split
  · next h => exact Or.inr ⟨rfl, h.1, h.2⟩
  · exact Or.inl rfl

theorem finishCheck_track (m : CheckpointManager) (pos : QVec) (r : ℚ) (now : ℤ) :
    (m.finishCheck pos r now).track = m.track := by
  unfold finishCheck
  split
  · exact completeStage_track m now
  · rfl

theorem finishCheck_cc (m : CheckpointManager) (pos : QVec) (r : ℚ) (now : ℤ) :
    (m.finishCheck pos r now).currentCheckpoint = m.currentCheckpoint := by
  unfold finishCheck
  split
  · exact completeStage_cc m now
  · rfl

end CheckpointManager

/-! ## C4: tracks without a finish line -/

/-- `update` never changes the watched track. -/
theorem update_track_eq (m : CheckpointManager) (pos : QVec) (r : ℚ) (now : ℤ) :
    (m.update pos r now).track = m.track := by
  unfold CheckpointManager.update
  split
  · rfl
  · dsimp only
    split
    · rw [CheckpointManager.finishCheck_track, CheckpointManager.checkpointAdvance_track,
        CheckpointManager.refreshStageTime_track, CheckpointManager.startLatch_track]
    · rw [CheckpointManager.startLatch_track]

/-- With no finish line the finish check is constantly false, so a
single `update` can never complete the stage. -/
theorem update_no_finish (m : CheckpointManager) (pos : QVec) (r : ℚ) (now : ℤ)
    (hf : m.track.finishLine = none) (hc : m.stageComplete = false) :
    (m.update pos r now).stageComplete = false := by
  unfold CheckpointManager.update
  split
  · exact hc
  · dsimp only
    split
    · unfold CheckpointManager.finishCheck
      split
      · next h =>
        exfalso
        have h2 := h.2
        unfold CheckpointManager.checkPassedFinishLine at h2
        rw [CheckpointManager.checkpointAdvance_track,
          CheckpointManager.refreshStageTime_track,
          CheckpointManager.startLatch_track, hf] at h2
        simp at h2
      · rw [CheckpointManager.checkpointAdvance_complete,
          CheckpointManager.refreshStageTime_complete,
          CheckpointManager.startLatch_complete]
        exact hc
    · rw [CheckpointManager.startLatch_complete]
      exact hc

/-- `runUpdates` never changes the watched track. -/
theorem runUpdates_track_eq (inputs : List CheckpointManager.UpdateIn)
    (m : CheckpointManager) :
    (m.runUpdates inputs).track = m.track := by
  induction inputs generalizing m with
  | nil => rfl
  | cons i is ih =>
    show ((m.update i.pos i.radius i.now).runUpdates is).track = m.track
    rw [ih, update_track_eq]

/-- With no finish line, no sequence of updates can complete the stage. -/
theorem runUpdates_no_finish (inputs : List CheckpointManager.UpdateIn)
    (m : CheckpointManager) (hf : m.track.finishLine = none)
    (hc : m.stageComplete = false) :
    (m.runUpdates inputs).stageComplete = false := by
  induction inputs generalizing m with
  | nil => exact hc
  | cons i is ih =>
    show ((m.update i.pos i.radius i.now).runUpdates is).stageComplete = false
    exact ih _ (by rw [update_track_eq]; exact hf) (update_no_finish m _ _ _ hf hc)

/-- Counterexample to C4 as stated: on `trivialTrackQ` (no finish line,
no checkpoints), the car intersects the start-line rectangle with all
checkpoints passed, yet the update does not complete the stage — there
is no implicit fallback to the start line. -/
theorem c4_counterexample :
    (CheckpointManager.init trivialTrackQ).checkPassedStartLine ⟨0, 0⟩ 10 = true ∧
    ((CheckpointManager.init trivialTrackQ).update ⟨0, 0⟩ 10 0).hasPassedStartLine = true ∧
    trivialTrackQ.checkpoints.length ≤
      ((CheckpointManager.init trivialTrackQ).update ⟨0, 0⟩ 10 0).currentCheckpoint ∧
    ((CheckpointManager.init trivialTrackQ).update ⟨0, 0⟩ 10 0).stageComplete = false := by
  norm_num [CheckpointManager.init, CheckpointManager.update, CheckpointManager.startLatch,
    CheckpointManager.refreshStageTime, CheckpointManager.checkpointAdvance,
    CheckpointManager.finishCheck, CheckpointManager.completeStage,
    CheckpointManager.checkPassedStartLine, CheckpointManager.checkPassedFinishLine,
    CheckpointManager.startLineRect, trivialTrackQ, defaultStartLine, circleRectIntersect,
    qclamp, jsTruthyTime, TrackQ.checkCheckpoint, TrackQ.checkpointRects, jsOrQ]

/-- C4 (amended): on a track without a finish line the finish-line
check returns `false` everywhere, so even once all checkpoints are
passed no sequence of updates — in particular none that intersects the
start-line rectangle — ever completes the stage: the code has no
implicit lap-mode fallback to the start line. -/
theorem c4_no_finish_line_never_completes (t : TrackQ) (hf : t.finishLine = none) :
    (∀ (m : CheckpointManager) (pos : QVec) (r : ℚ),
        m.track = t → m.checkPassedFinishLine pos r = false) ∧
    (∀ inputs : List CheckpointManager.UpdateIn,
        ((CheckpointManager.init t).runUpdates inputs).stageComplete = false) := by
  constructor
  · intro m pos r htrack
    unfold CheckpointManager.checkPassedFinishLine
    rw [htrack, hf]
  · intro inputs
    exact runUpdates_no_finish inputs _ hf rfl

/-- Witness for C4 (amended), at `trivialTrackQ` and a start-line
crossing input. -/
theorem c4_witness :
    (CheckpointManager.init trivialTrackQ).checkPassedFinishLine ⟨0, 0⟩ 10 = false ∧
    ((CheckpointManager.init trivialTrackQ).runUpdates
        [⟨⟨0, 0⟩, 10, 0⟩]).stageComplete = false :=
  ⟨(c4_no_finish_line_never_completes trivialTrackQ rfl).1 _ ⟨0, 0⟩ 10 rfl,
   (c4_no_finish_line_never_completes trivialTrackQ rfl).2 [⟨⟨0, 0⟩, 10, 0⟩]⟩

/-! ## C1: checkpoint progression invariants -/

/-- One `update` call either leaves the checkpoint index unchanged, or
increments it by exactly one — and then only because the car's circle
intersected the checkpoint rect at exactly that index. -/
theorem update_cc_cases (m : CheckpointManager) (pos : QVec) (r : ℚ) (now : ℤ) :
    (m.update pos r now).currentCheckpoint = m.currentCheckpoint ∨
      ((m.update pos r now).currentCheckpoint = m.currentCheckpoint + 1 ∧
        m.currentCheckpoint < m.track.checkpoints.length ∧
        m.track.checkCheckpoint pos r m.currentCheckpoint = true) := by
  unfold CheckpointManager.update
  split
  · exact Or.inl rfl
  · dsimp only
    split
    · rw [CheckpointManager.finishCheck_cc]
      have h := CheckpointManager.checkpointAdvance_cases
        ((m.startLatch pos r now).refreshStageTime now) pos r now
      rw [CheckpointManager.refreshStageTime_cc, CheckpointManager.startLatch_cc,
        CheckpointManager.refreshStageTime_track, CheckpointManager.startLatch_track] at h
      exact h
    · rw [CheckpointManager.startLatch_cc]
      exact Or.inl rfl

/-- The checkpoint index never decreases over one update. -/
theorem update_cc_le (m : CheckpointManager) (pos : QVec) (r : ℚ) (now : ℤ) :
    m.currentCheckpoint ≤ (m.update pos r now).currentCheckpoint := by
  rcases update_cc_cases m pos r now with h | h
  · omega
  · omega

/-- `runUpdates` splits along list append. -/
theorem runUpdates_append (m : CheckpointManager)
    (pre suf : List CheckpointManager.UpdateIn) :
    m.runUpdates (pre ++ suf) = (m.runUpdates pre).runUpdates suf := by
  unfold CheckpointManager.runUpdates
  exact List.foldl_append _ _ pre suf

/-- The checkpoint index never decreases over any update sequence. -/
theorem runUpdates_cc_le (inputs : List CheckpointManager.UpdateIn)
    (m : CheckpointManager) :
    m.currentCheckpoint ≤ (m.runUpdates inputs).currentCheckpoint := by
  induction inputs generalizing m with
  | nil => exact le_refl _
  | cons i is ih =>
    exact le_trans (update_cc_le m i.pos i.radius i.now)
      (ih (m.update i.pos i.radius i.now))

/-- The checkpoint index stays bounded by the checkpoint count. -/
theorem runUpdates_cc_bound (inputs : List CheckpointManager.UpdateIn)
    (m : CheckpointManager)
    (hb : m.currentCheckpoint ≤ m.track.checkpoints.length) :
    (m.runUpdates inputs).currentCheckpoint ≤ m.track.checkpoints.length := by
  induction inputs generalizing m with
  | nil => exact hb
  | cons i is ih =>
    show ((m.update i.pos i.radius i.now).runUpdates is).currentCheckpoint ≤ _
    have htr : (m.update i.pos i.radius i.now).track = m.track :=
      update_track_eq m i.pos i.radius i.now
    have hstep : (m.update i.pos i.radius i.now).currentCheckpoint ≤
        m.track.checkpoints.length := by
      rcases update_cc_cases m i.pos i.radius i.now with h | h
      · omega
      · omega
    have := ih (m.update i.pos i.radius i.now) (by rw [htr]; exact hstep)
    rwa [htr] at this

/-- C1: within one attempt the checkpoint index is non-decreasing,
advances by at most one per update, advances only when the car's
bounding circle intersects the checkpoint rect at exactly the current
index, and — starting from a fresh manager — never exceeds the track's
checkpoint count. -/
theorem c1_checkpoint_progression (t : TrackQ) :
    (∀ (m : CheckpointManager) (pos : QVec) (r : ℚ) (now : ℤ),
        m.currentCheckpoint ≤ (m.update pos r now).currentCheckpoint ∧
        (m.update pos r now).currentCheckpoint ≤ m.currentCheckpoint + 1 ∧
        ((m.update pos r now).currentCheckpoint ≠ m.currentCheckpoint →
          (m.update pos r now).currentCheckpoint = m.currentCheckpoint + 1 ∧
            m.track.checkCheckpoint pos r m.currentCheckpoint = true)) ∧
    (∀ pre suf : List CheckpointManager.UpdateIn,
        ((CheckpointManager.init t).runUpdates pre).currentCheckpoint ≤
          ((CheckpointManager.init t).runUpdates (pre ++ suf)).currentCheckpoint) ∧
    (∀ inputs : List CheckpointManager.UpdateIn,
        ((CheckpointManager.init t).runUpdates inputs).currentCheckpoint ≤
          t.checkpoints.length) := by
  refine ⟨fun m pos r now => ?_, fun pre suf => ?_, fun inputs => ?_⟩
  · rcases update_cc_cases m pos r now with h | h
    · exact ⟨by omega, by omega, fun hne => absurd h hne⟩
    · exact ⟨by omega, by omega, fun _ => ⟨h.1, h.2.2⟩⟩
  · rw [runUpdates_append]
    exact runUpdates_cc_le suf _
  · exact runUpdates_cc_bound inputs _ (Nat.zero_le _)

/-- Witness for C1: on `oneCheckpointTrack`, the first update from the
origin (which intersects both the start line and checkpoint 0)
advances the index to exactly 1, and the theorem's bounds apply there. -/
theorem c1_witness :
    ((CheckpointManager.init oneCheckpointTrack).update ⟨0, 0⟩ 10 0).currentCheckpoint
        ≤ 0 + 1 ∧
    (((CheckpointManager.init oneCheckpointTrack).update ⟨0, 0⟩ 10 0).currentCheckpoint
          ≠ 0 →
      ((CheckpointManager.init oneCheckpointTrack).update ⟨0, 0⟩ 10 0).currentCheckpoint
            = 0 + 1 ∧
        oneCheckpointTrack.checkCheckpoint ⟨0, 0⟩ 10 0 = true) ∧
    ((CheckpointManager.init oneCheckpointTrack).update ⟨0, 0⟩ 10 0).currentCheckpoint
        = 1 :=
  ⟨((c1_checkpoint_progression oneCheckpointTrack).1
      (CheckpointManager.init oneCheckpointTrack) ⟨0, 0⟩ 10 0).2.1,
   ((c1_checkpoint_progression oneCheckpointTrack).1
      (CheckpointManager.init oneCheckpointTrack) ⟨0, 0⟩ 10 0).2.2,
   by norm_num [CheckpointManager.init, CheckpointManager.update, CheckpointManager.startLatch,
    CheckpointManager.refreshStageTime, CheckpointManager.checkpointAdvance,
    CheckpointManager.finishCheck, CheckpointManager.completeStage,
    CheckpointManager.checkPassedStartLine, CheckpointManager.checkPassedFinishLine,
    CheckpointManager.startLineRect, oneCheckpointTrack, defaultStartLine, circleRectIntersect,
    qclamp, jsTruthyTime, TrackQ.checkCheckpoint, TrackQ.checkpointRects, jsOrQ]⟩

/-! ## C5: fixed-timestep accumulation -/

/-- The accumulator drain returns `acc` minus one fixed step per
iteration, leaving a remainder in `[0, FIXED_TIMESTEP)`. -/
theorem drain_spec (acc : ℚ) (h : 0 ≤ acc) :
    (drain acc).1 = acc - ((drain acc).2 : ℚ) * FIXED_TIMESTEP ∧
    0 ≤ (drain acc).1 ∧ (drain acc).1 < FIXED_TIMESTEP := by
  rw [drain]
  split
  · next hc =>
    have hnn : (0 : ℚ) ≤ acc - FIXED_TIMESTEP := by linarith
    have ih := drain_spec (acc - FIXED_TIMESTEP) hnn
    dsimp only
    refine ⟨?_, ih.2.1, ih.2.2⟩
    rw [ih.1]
    push_cast
    ring
  · next hc =>
    dsimp only
    exact ⟨by push_cast; ring, h, lt_of_not_le hc⟩
  termination_by (⌈acc / FIXED_TIMESTEP⌉).toNat
  decreasing_by
    have h15 : (0 : ℚ) < FIXED_TIMESTEP := by norm_num [FIXED_TIMESTEP]
    have h1 : (1 : ℚ) ≤ acc / FIXED_TIMESTEP := (one_le_div h15).mpr (by assumption)
    have hdiv : (acc - FIXED_TIMESTEP) / FIXED_TIMESTEP = acc / FIXED_TIMESTEP - 1 := by
      field_simp
    have h2 : (1 : ℤ) ≤ ⌈acc / FIXED_TIMESTEP⌉ := by
      have hcl := Int.le_ceil (acc / FIXED_TIMESTEP)
      exact_mod_cast le_trans h1 hcl
    rw [hdiv, Int.ceil_sub_one]
    omega

/-- Invariant of the full loop: starting from an accumulator in
`[0, FIXED_TIMESTEP)` and fed deltas in `[0, MAX_FRAME_TIME]`, the
final accumulator equals the total time fed minus one fixed step per
physics step, and stays in `[0, FIXED_TIMESTEP)`. -/
theorem runLoop_spec (deltas : List ℚ) (acc : ℚ) (h0 : 0 ≤ acc)
    (h1 : acc < FIXED_TIMESTEP)
    (hd : ∀ d ∈ deltas, 0 ≤ d ∧ d ≤ MAX_FRAME_TIME) :
    (runLoop acc deltas).1 =
      acc + deltas.sum - ((runLoop acc deltas).2 : ℚ) * FIXED_TIMESTEP ∧
    0 ≤ (runLoop acc deltas).1 ∧ (runLoop acc deltas).1 < FIXED_TIMESTEP := by
  induction deltas generalizing acc with
  | nil =>
    refine ⟨?_, h0, h1⟩
    simp [runLoop]
  | cons d ds ih =>
    have hdd := hd d (by simp)
    have hmin : min d MAX_FRAME_TIME = d := min_eq_left hdd.2
    have hnn : 0 ≤ acc + min d MAX_FRAME_TIME := by
      rw [hmin]
      linarith [hdd.1]
    have hds := drain_spec (acc + min d MAX_FRAME_TIME) hnn
    have ihh := ih (gameTick acc d).1 hds.2.1 hds.2.2
      (fun x hx => hd x (by simp [hx]))
    simp only [runLoop, List.sum_cons]
    refine ⟨?_, ihh.2.1, ihh.2.2⟩
    have hfst : (gameTick acc d).1 =
        acc + d - ((gameTick acc d).2 : ℚ) * FIXED_TIMESTEP := by
      unfold gameTick
      rw [hds.1, hmin]
    rw [ihh.1, hfst]
    push_cast
    ring

/-- Counterexample to C5 as stated: the single real-frame delta `1/2 s`
sums to exactly 30 fixed steps, but the `MAX_FRAME_TIME` clamp discards
half of it and the loop runs only 15 physics steps. -/
theorem c5_counterexample :
    (0 : ℚ) ≤ 1 / 2 ∧
    ([(1 / 2 : ℚ)].sum = (30 : ℚ) * FIXED_TIMESTEP) ∧
    (runLoop 0 [(1 / 2 : ℚ)]).2 = 15 := by
  refine ⟨by norm_num, by norm_num [FIXED_TIMESTEP], ?_⟩
  have hds := drain_spec (0 + min (1 / 2 : ℚ) MAX_FRAME_TIME)
    (by norm_num [MAX_FRAME_TIME])
  have hm : (0 : ℚ) + min (1 / 2 : ℚ) MAX_FRAME_TIME = 1 / 4 := by
    norm_num [MAX_FRAME_TIME]
  simp only [runLoop, gameTick]
  rw [hm] at hds ⊢
  set k := (drain (1 / 4 : ℚ)).2 with hk
  have hts : FIXED_TIMESTEP = 1 / 60 := by norm_num [FIXED_TIMESTEP]
  have h1 : (k : ℚ) ≤ 15 := by
    have h := hds.2.1
    rw [hds.1, hts] at h
    linarith
  have h2 : (14 : ℚ) < k := by
    have h := hds.2.2
    rw [hds.1, hts] at h
    linarith
  have h1' : k ≤ 15 := by exact_mod_cast h1
  have h2' : 14 < k := by exact_mod_cast h2
  omega

/-- C5 (amended): for every sequence of nonnegative per-tick deltas
each at most `MAX_FRAME_TIME` (so the clamp never discards time) whose
sum is exactly `N` fixed timesteps, the loop runs exactly `N` physics
steps, independent of the chunking. -/
theorem c5_fixed_timestep (deltas : List ℚ) (N : ℕ)
    (hd : ∀ d ∈ deltas, 0 ≤ d ∧ d ≤ MAX_FRAME_TIME)
    (hsum : deltas.sum = (N : ℚ) * FIXED_TIMESTEP) :
    (runLoop 0 deltas).2 = N := by
  have h := runLoop_spec deltas 0 le_rfl (by norm_num [FIXED_TIMESTEP]) hd
  have hTS : (0 : ℚ) < FIXED_TIMESTEP := by norm_num [FIXED_TIMESTEP]
  set k := (runLoop 0 deltas).2 with hkdef
  have hr := h.1
  rw [hsum] at hr
  have hk1 : (k : ℚ) * FIXED_TIMESTEP ≤ (N : ℚ) * FIXED_TIMESTEP := by
    have := h.2.1
    rw [hr] at this
    linarith
  have hk2 : (N : ℚ) * FIXED_TIMESTEP < ((k : ℚ) + 1) * FIXED_TIMESTEP := by
    have := h.2.2
    rw [hr] at this
    nlinarith
  have hle : (k : ℚ) ≤ (N : ℚ) := (mul_le_mul_right hTS).mp hk1
  have hlt : (N : ℚ) < (k : ℚ) + 1 := (mul_lt_mul_right hTS).mp hk2
  have hle' : k ≤ N := by exact_mod_cast hle
  have hlt' : N < k + 1 := by exact_mod_cast hlt
  omega

/-- Witness for C5: deltas `[1/60, 1/30]` sum to 3 fixed steps and the
loop runs exactly 3 physics updates. -/
theorem c5_witness : (runLoop 0 [(1 / 60 : ℚ), 1 / 30]).2 = 3 := by
  apply c5_fixed_timestep
  · intro d hd
    have : d = 1 / 60 ∨ d = 1 / 30 := by simpa using hd
    rcases this with rfl | rfl <;> constructor <;> norm_num [MAX_FRAME_TIME]
  · norm_num [FIXED_TIMESTEP]

/-! ## C8: leaderboard insertion -/

/-- `insertByTime` inserts, up to order. -/
theorem insertByTime_perm (e : Entry) (l : List Entry) :
    List.Perm (insertByTime e l) (e :: l) := by
  induction l with
  | nil => exact List.Perm.refl _
  | cons y ys ih =>
    unfold insertByTime
    split
    · exact (ih.cons y).trans (List.Perm.swap e y ys)
    · exact List.Perm.refl _

/-- `sortByTime` permutes its input. -/
theorem sortByTime_perm (l : List Entry) : List.Perm (sortByTime l) l := by
  induction l with
  | nil => exact List.Perm.refl _
  | cons x xs ih =>
    exact (insertByTime_perm x (sortByTime xs)).trans (ih.cons x)

/-- `insertByTime` preserves ascending-by-time sortedness. -/
theorem insertByTime_pairwise (e : Entry) (l : List Entry)
    (h : l.Pairwise (fun a b => a.time ≤ b.time)) :
    (insertByTime e l).Pairwise (fun a b => a.time ≤ b.time) := by
  induction l with
  | nil => simp [insertByTime]
  | cons y ys ih =>
    rw [List.pairwise_cons] at h
    unfold insertByTime
    split
    · next hlt =>
      rw [List.pairwise_cons]
      refine ⟨fun a ha => ?_, ih h.2⟩
      have ha' : a ∈ e :: ys := (insertByTime_perm e ys).mem_iff.mp ha
      rcases List.mem_cons.mp ha' with rfl | hmem
      · exact le_of_lt hlt
      · exact h.1 a hmem
    · next hge =>
      have hey : e.time ≤ y.time := le_of_not_lt hge
      rw [List.pairwise_cons]
      refine ⟨fun a ha => ?_, List.pairwise_cons.mpr h⟩
      rcases List.mem_cons.mp ha with rfl | hmem
      · exact hey
      · exact le_trans hey (h.1 a hmem)

/-- `sortByTime` sorts ascending by time. -/
theorem sortByTime_pairwise (l : List Entry) :
    (sortByTime l).Pairwise (fun a b => a.time ≤ b.time) := by
  induction l with
  | nil => simp [sortByTime]
  | cons x xs ih => exact insertByTime_pairwise x (sortByTime xs) ih

/-- Filtering the tied entries commutes with `insertByTime`: the
inserted element lands before every element with the same time. -/
theorem insertByTime_filter (e : Entry) (l : List Entry) (t : ℚ) :
    (insertByTime e l).filter (fun x => decide (x.time = t)) =
      if e.time = t then e :: l.filter (fun x => decide (x.time = t))
      else l.filter (fun x => decide (x.time = t)) := by
  induction l with
  | nil =>
    by_cases ht : e.time = t <;> simp [insertByTime, List.filter_cons, ht]
  | cons y ys ih =>
    unfold insertByTime
    by_cases hy : y.time < e.time
    · rw [if_pos hy]
      by_cases ht : e.time = t
      · have hyt : ¬y.time = t := by
          intro hyt
          rw [hyt, ← ht] at hy
          exact lt_irrefl _ hy
        simp [List.filter_cons, hyt, ih, ht]
      · simp only [List.filter_cons, ih, ht, if_false]
    · rw [if_neg hy]
      by_cases ht : e.time = t <;> simp [List.filter_cons, ht]

/-- Stability of `sortByTime`: among entries with any one fixed time,
the sorted order is the original order. -/
theorem sortByTime_filter (l : List Entry) (t : ℚ) :
    (sortByTime l).filter (fun x => decide (x.time = t)) =
      l.filter (fun x => decide (x.time = t)) := by
  induction l with
  | nil => rfl
  | cons x xs ih =>
    show (insertByTime x (sortByTime xs)).filter _ = _
    rw [insertByTime_filter]
    by_cases ht : x.time = t <;> simp [ht, ih, List.filter_cons]

/-- C8: leaderboard insertion keeps at most 10 entries (exactly
`min 10 (n+1)`), sorted ascending by time; the kept entries together
with some rest are exactly the old entries plus the new one, every kept
time is at most every discarded time, and among tied times the kept
entries are an initial segment of the original insertion order. -/
theorem c8_leaderboard (stored : List Entry) (name : String) (time : ℚ) (now : ℤ) :
    (StorageManager.addLeaderboardEntry stored name time now).length =
      min 10 (stored.length + 1) ∧
    (StorageManager.addLeaderboardEntry stored name time now).Pairwise
      (fun a b => a.time ≤ b.time) ∧
    (∃ rest : List Entry,
      List.Perm (StorageManager.addLeaderboardEntry stored name time now ++ rest)
          (stored ++ [({ name := name, time := time, date := now } : Entry)]) ∧
        ∀ x ∈ StorageManager.addLeaderboardEntry stored name time now,
          ∀ y ∈ rest, x.time ≤ y.time) ∧
    (∀ t : ℚ,
      (StorageManager.addLeaderboardEntry stored name time now).filter
          (fun e => decide (e.time = t)) <+:
        (stored ++ [({ name := name, time := time, date := now } : Entry)]).filter
          (fun e => decide (e.time = t))) := by
  unfold StorageManager.addLeaderboardEntry
  dsimp only
  set input := stored ++ [({ name := name, time := time, date := now } : Entry)] with hinput
  have hperm := sortByTime_perm input
  have hsorted := sortByTime_pairwise input
  refine ⟨?_, ?_, ?_, ?_⟩
  · simp only [List.length_take, hperm.length_eq, hinput, List.length_append,
      List.length_singleton]
  · exact hsorted.sublist (List.take_sublist 10 (sortByTime input))
  · refine ⟨(sortByTime input).drop 10, ?_, ?_⟩
    · rw [List.take_append_drop]
      exact hperm
    · have hall : ((sortByTime input).take 10 ++ (sortByTime input).drop 10).Pairwise
          (fun a b => a.time ≤ b.time) := by
        rw [List.take_append_drop]
        exact hsorted
      exact (List.pairwise_append.mp hall).2.2
  · intro t
    have hpre : (sortByTime input).take 10 <+: sortByTime input :=
      List.take_prefix 10 (sortByTime input)
    have := hpre.filter (fun e => decide (e.time = t))
    rwa [sortByTime_filter] at this

/-! ## C9: ghost playback determinism -/

/-- The replay-relevant output of `AICar.update` is insensitive to the
inherited physics fields: overwriting `speed`/`slipAngle` with anything
leaves the stepped pose, cursor, trace and activity flag unchanged. -/
theorem aiUpdate_obs_eq (s : AICar) (sp sl d : ℚ) :
    ((AICar.update { s with speed := sp, slipAngle := sl } d).position,
      (AICar.update { s with speed := sp, slipAngle := sl } d).angle,
      (AICar.update { s with speed := sp, slipAngle := sl } d).ghostData,
      (AICar.update { s with speed := sp, slipAngle := sl } d).currentFrame,
      (AICar.update { s with speed := sp, slipAngle := sl } d).isActive) =
    ((s.update d).position, (s.update d).angle, (s.update d).ghostData,
      (s.update d).currentFrame, (s.update d).isActive) := by
  unfold AICar.update
  dsimp only
  split
  · rfl
  · rcases hfr : AICar.frameAt s.ghostData s.currentFrame with _ | fr <;> dsimp only
    split <;> rfl

/-- Two replay states agreeing on trace, cursor, activity and pose
still agree on all five after one step. -/
theorem aiUpdate_agree (s₁ s₂ : AICar) (d : ℚ)
    (hg : s₁.ghostData = s₂.ghostData) (hf : s₁.currentFrame = s₂.currentFrame)
    (ha : s₁.isActive = s₂.isActive) (hp : s₁.position = s₂.position)
    (hθ : s₁.angle = s₂.angle) :
    (s₁.update d).ghostData = (s₂.update d).ghostData ∧
    (s₁.update d).currentFrame = (s₂.update d).currentFrame ∧
    (s₁.update d).isActive = (s₂.update d).isActive ∧
    (s₁.update d).position = (s₂.update d).position ∧
    (s₁.update d).angle = (s₂.update d).angle := by
  have hs : s₁ = { s₂ with speed := s₁.speed, slipAngle := s₁.slipAngle } := by
    cases s₁
    cases s₂
    simp only [AICar.mk.injEq] at hg hf ha hp hθ ⊢
    simp_all
  rw [hs]
  have h := aiUpdate_obs_eq s₂ s₁.speed s₁.slipAngle d
  simp only [Prod.mk.injEq] at h
  exact ⟨h.2.2.1, h.2.2.2.1, h.2.2.2.2, h.1, h.2.1⟩

/-- C9: ghost playback is deterministic — two replay runs over the
same recorded trace, from the same initial pose, cursor and activity
state, fed the same per-step deltas, produce identical position and
heading sequences (whatever the inherited physics fields hold). -/
theorem c9_ghost_playback_deterministic (s₁ s₂ : AICar) (deltas : List ℚ)
    (hg : s₁.ghostData = s₂.ghostData) (hf : s₁.currentFrame = s₂.currentFrame)
    (ha : s₁.isActive = s₂.isActive) (hp : s₁.position = s₂.position)
    (hθ : s₁.angle = s₂.angle) :
    (s₁.run deltas).map (fun c => (c.position, c.angle)) =
      (s₂.run deltas).map (fun c => (c.position, c.angle)) := by
  induction deltas generalizing s₁ s₂ with
  | nil => rfl
  | cons d ds ih =>
    obtain ⟨hg', hf', ha', hp', hθ'⟩ := aiUpdate_agree s₁ s₂ d hg hf ha hp hθ
    show ((s₁.update d) :: (s₁.update d).run ds).map _ =
      ((s₂.update d) :: (s₂.update d).run ds).map _
    rw [List.map_cons, List.map_cons, hp', hθ',
      ih (s₁.update d) (s₂.update d) hg' hf' ha' hp' hθ']

/-- Witness for C9: `ghostPlayerA` and `ghostPlayerB` differ in the
physics fields but replay the same trace to identical pose sequences. -/
theorem c9_witness :
    (ghostPlayerA.run [1 / 60, 1 / 60]).map (fun c => (c.position, c.angle)) =
      (ghostPlayerB.run [1 / 60, 1 / 60]).map (fun c => (c.position, c.angle)) :=
  c9_ghost_playback_deterministic ghostPlayerA ghostPlayerB [1 / 60, 1 / 60]
    rfl rfl rfl rfl rfl

/-! ## C6: vehicle at rest with zero input -/

theorem normDown_zero : normDown 0 = 0 := by
  rw [normDown, if_neg (not_lt.mpr (le_of_lt Real.pi_pos))]

theorem normUp_zero : normUp 0 = 0 := by
  rw [normUp, if_neg (not_lt.mpr (by linarith [Real.pi_pos]))]

theorem normalizeAngle_zero : normalizeAngle 0 = 0 := by
  rw [normalizeAngle, normDown_zero, normUp_zero]

theorem SURFACE_GRIP_pos (s : SurfaceKind) : 0 < CAR_CONFIG.SURFACE_GRIP s := by
  cases s <;> norm_num [CAR_CONFIG.SURFACE_GRIP]

/-- C6: on any track, a vehicle at rest (zero velocity, zero angular
velocity, hence zero stored speed) stepped once with zero steer,
throttle, brake and no handbrake ends the step with `slipAngle = 0`
and `speed = 0`. -/
theorem c6_rest_zero_input (track : TrackR) (c : Car) (dt : ℝ) (now : ℤ)
    (hv : c.velocity = ⟨0, 0⟩) (hw : c.angularVelocity = 0) (hs : c.speed = 0) :
    (c.update zeroInput dt (some track) now).slipAngle = 0 ∧
    (c.update zeroInput dt (some track) now).speed = 0 := by
  rcases hst : track.getSurfaceType c.position with _ | _ | _ <;>
  · simp only [Car.update, zeroInput, hst, hv, hw, hs]
    norm_num [rclamp, Vec2.add, Vec2.sub, Vec2.mul, Vec2.dot, Vec2.length, Vec2.normalize,
      Car.jsSign, normalizeAngle_zero, Real.sqrt_zero, abs_zero,
      CAR_CONFIG.SURFACE_GRIP, CAR_CONFIG.SURFACE_LATERAL, CAR_CONFIG.MAX_TRACTION,
      CAR_CONFIG.LATERAL_FRICTION, CAR_CONFIG.SLIP_THRESHOLD, CAR_CONFIG.SLIP_FACTOR,
      CAR_CONFIG.DRIFT_FACTOR, CAR_CONFIG.GRIP_RECOVERY, CAR_CONFIG.CORNER_STIFFNESS,
      CAR_CONFIG.LATERAL_VELOCITY_DAMPING, CAR_CONFIG.HANDBRAKE_FORCE,
      CAR_CONFIG.HANDBRAKE_SLIP, CAR_CONFIG.HANDBRAKE_LATERAL_REDUCTION,
      CAR_CONFIG.MAX_ACCELERATION, CAR_CONFIG.MAX_BRAKE_FORCE, CAR_CONFIG.FRICTION,
      CAR_CONFIG.MAX_STEER_ANGLE, CAR_CONFIG.STEER_SPEED, CAR_CONFIG.STEER_RESPONSE,
      CAR_CONFIG.TIRE_MARK_THRESHOLD, CAR_CONFIG.TIRE_MARK_INTENSITY_SCALE]

/-- Witness for C6: the freshly constructed car on the empty track. -/
theorem c6_witness :
    ((Car.mkCar 0 0 0).update zeroInput (1 / 60) (some emptyTrackR) 0).slipAngle = 0 ∧
    ((Car.mkCar 0 0 0).update zeroInput (1 / 60) (some emptyTrackR) 0).speed = 0 :=
  c6_rest_zero_input emptyTrackR (Car.mkCar 0 0 0) (1 / 60) 0 rfl rfl rfl

/-! ## C3: boundary collision resolution is not idempotent -/

theorem sqrt_289 : Real.sqrt 289 = 17 := by
  rw [show (289 : ℝ) = 17 ^ 2 by norm_num]
  exact Real.sqrt_sq (by norm_num)

theorem sqrt_324 : Real.sqrt 324 = 18 := by
  rw [show (324 : ℝ) = 18 ^ 2 by norm_num]
  exact Real.sqrt_sq (by norm_num)

theorem p2sd_wall_17 : pointToSegmentDistance ⟨50, 17⟩ ⟨0, 0⟩ ⟨100, 0⟩ = 17 := by
  norm_num [pointToSegmentDistance, Vec2.sub, Vec2.lengthSq, Vec2.dot, Vec2.add,
    Vec2.mul, rclamp, dist2, sqrt_289]

theorem p2sd_wall_18 : pointToSegmentDistance ⟨50, 18⟩ ⟨0, 0⟩ ⟨100, 0⟩ = 18 := by
  norm_num [pointToSegmentDistance, Vec2.sub, Vec2.lengthSq, Vec2.dot, Vec2.add,
    Vec2.mul, rclamp, dist2, sqrt_324]

/-- On the straight wall, the resolver pushes `(50, 17)` (distance 17,
radius 20) to `(50, 0) + (0, 1) * (20 - 17 + 15) = (50, 18)`. -/
theorem resolveOuter_wall_17 :
    resolveOuter ⟨50, 17⟩ 20
        [((⟨0, 0⟩ : Vec2), (⟨100, 0⟩ : Vec2)), (⟨100, 0⟩, ⟨0, 0⟩)] =
      some ⟨50, 18⟩ := by
  rw [resolveOuter]
  rw [if_pos (by rw [p2sd_wall_17]; norm_num)]
  norm_num [Vec2.sub, Vec2.lengthSq, Vec2.dot, Vec2.add, Vec2.mul, Vec2.length,
    Vec2.normalize, rclamp, sqrt_289]

/-- Re-querying at the "corrected" position `(50, 18)` still finds the
wall within the radius (distance 18 < 20) and pushes again. -/
theorem resolveOuter_wall_18 :
    resolveOuter ⟨50, 18⟩ 20
        [((⟨0, 0⟩ : Vec2), (⟨100, 0⟩ : Vec2)), (⟨100, 0⟩, ⟨0, 0⟩)] =
      some ⟨50, 17⟩ := by
  rw [resolveOuter]
  rw [if_pos (by rw [p2sd_wall_18]; norm_num)]
  norm_num [Vec2.sub, Vec2.lengthSq, Vec2.dot, Vec2.add, Vec2.mul, Vec2.length,
    Vec2.normalize, rclamp, sqrt_324]

/-- C3 (code bug evaluated): `checkCollision` at `(50, 17)` with radius
20 reports a hit with corrected position `(50, 18)`, and re-querying at
that corrected position reports a hit again — the resolver leaves the
circle only `radius - distance + 15` from the boundary, not
`radius + 15` as its own comment says, so resolution is not idempotent
whenever the penetration distance exceeds the 15-unit margin. -/
theorem c3_collision_not_idempotent :
    (straightWallTrack.checkCollision ⟨50, 17⟩ 20).hit = true ∧
    (straightWallTrack.checkCollision ⟨50, 17⟩ 20).newPosition = ⟨50, 18⟩ ∧
    (straightWallTrack.checkCollision
        (straightWallTrack.checkCollision ⟨50, 17⟩ 20).newPosition 20).hit = true := by
  have hedges : polyEdges straightWallTrack.outerBoundary =
      [((⟨0, 0⟩ : Vec2), (⟨100, 0⟩ : Vec2)), (⟨100, 0⟩, ⟨0, 0⟩)] := rfl
  have h1 : straightWallTrack.checkCollision ⟨50, 17⟩ 20 =
      { hit := true, newPosition := ⟨50, 18⟩ } := by
    unfold TrackR.checkCollision
    rw [hedges, resolveOuter_wall_17]
  have h2 : straightWallTrack.checkCollision ⟨50, 18⟩ 20 =
      { hit := true, newPosition := ⟨50, 17⟩ } := by
    unfold TrackR.checkCollision
    rw [hedges, resolveOuter_wall_18]
  rw [h1]
  exact ⟨rfl, rfl, by rw [h2]⟩

end SGP
